import Mathlib

/-!
Verification of the Identity Federation Core of the Linksy backend
(`backend/src/auth/service.py`, `backend/src/auth/controller.py`,
`backend/src/auth/keycloak_client.py`) against its natural-language
specification.

The Python code is shallowly embedded: database rows are a `List UserRow`,
the SQLAlchemy session's commits are modelled by explicit functional
updates guarded by the uniqueness constraints of the `users` table, wall
clock time is an explicit `Int` parameter (seconds), and every network
interaction with the identity provider is an explicit `Except`-valued
input describing the outcome the provider produced.  Python exceptions
are modelled with `Except String`; FastAPI's `HTTPException` is a record
of status code and detail.  Python truthiness on optional strings
(`None` and `""` are both falsy) is modelled by `pyFalsy`.
-/

/-- Row of the `users` table (`backend/src/entities/user.py`): integer
primary key, unique `username` and `email`, `password` hash (empty string
in federated mode), nullable unique `keycloak_user_id`, nullable
`last_synced_at` timestamp (modelled as seconds). -/
structure UserRow where
  id : Nat
  username : String
  email : String
  password : String
  keycloak_user_id : Option String
  last_synced_at : Option Int
  deriving Repr, DecidableEq

/-- Result of `verify_keycloak_token` (`keycloak_client.py`): the merged
introspection + userinfo payload.  Each `dict.get` may produce `None`,
hence `Option String` fields. -/
structure TokenInfo where
  keycloak_user_id : Option String
  preferred_username : Option String
  email : Option String
  active : Bool
  deriving Repr, DecidableEq

/-- Payload of a decoded legacy JWT (`sub` and `id` claims). -/
structure LegacyPayload where
  sub : Option String
  id : Option Nat
  deriving Repr, DecidableEq

/-- FastAPI HTTPException, as observable by a client. -/
structure HTTPException where
  status_code : Nat
  detail : String
  deriving Repr, DecidableEq

/-- Python truthiness test on an optional string: `not x` is true exactly
when `x` is `None` or the empty string. -/
def pyFalsy : Option String → Bool
  | none => true
  | some s => s = ""

/-- Python `x or fallback` on an optional string: yields `fallback` when
`x` is falsy (`None` or `""`), otherwise the string itself. -/
def pyOr (x : Option String) (fallback : String) : String :=
  match x with
  | none => fallback
  | some s => if s = "" then fallback else s

/-- Python `row_email != claim_email` where `claim_email` is `None` or a
string: comparing a string with `None` yields `True`. -/
def emailDiffers (rowEmail : String) (claimEmail : Option String) : Bool :=
  match claimEmail with
  | none => true
  | some e => decide (rowEmail ≠ e)

/-- Lookup `select(User).where(User.keycloak_user_id == kc)`: a SQL `NULL`
column never equals a string parameter. -/
def findByKeycloakId (db : List UserRow) (kc : String) : Option UserRow :=
  db.find? (fun u => u.keycloak_user_id = some kc)

/-- Lookup `select(User).where(User.username == username)`. -/
def findByUsername (db : List UserRow) (username : String) : Option UserRow :=
  db.find? (fun u => u.username = username)

/-- Lookup `select(User).where(User.email == email)`. -/
def findByEmail (db : List UserRow) (email : String) : Option UserRow :=
  db.find? (fun u => u.email = email)

/-- Lookup `select(User).where(User.id == uid)`. -/
def findById (db : List UserRow) (uid : Nat) : Option UserRow :=
  db.find? (fun u => u.id = uid)

/-- Constraints the database enforces on commit (`backend/src/entities/user.py`):
primary key on `id`, unique `username`, unique `email`, unique
`keycloak_user_id` where non-NULL.  A commit that would violate one of
them raises an integrity error instead. -/
def dbUnique (db : List UserRow) : Bool :=
  (db.map (·.id)).Nodup && (db.map (·.username)).Nodup &&
  (db.map (·.email)).Nodup && (db.filterMap (·.keycloak_user_id)).Nodup

/-- Functional update of the row with primary key `i`. -/
def updateRow (db : List UserRow) (i : Nat) (u : UserRow) : List UserRow :=
  db.map (fun r => if r.id = i then u else r)

/-- Staleness check of `get_current_user` (`service.py` lines 120-125):
sync when never synced, synced more than 86400 s ago, the username
differs, or the email differs — the email comparison is against the raw
claim value, so an absent email claim always counts as different. -/
def should_sync (u : UserRow) (username : String) (claimEmail : Option String)
    (now : Int) : Bool :=
  match u.last_synced_at with
  | none => true
  | some t =>
      decide (now - t > 86400) || decide (u.username ≠ username) ||
      emailDiffers u.email claimEmail

/-- Keycloak branch of `get_current_user` (`service.py` lines 68-135),
before the blanket `except` clause.  `token_info` is the outcome of
`verify_keycloak_token` (an exception there propagates), `now` is
`datetime.utcnow()`, `freshId` the primary key the database would assign
to an inserted row.  The session commits only where the code calls
`db.commit()`; a commit violating a uniqueness constraint raises.
Un-committed attribute writes (the `keycloak_user_id` upgrade when no
sync follows) are visible on the returned object but are not persisted,
since the session is closed without a commit. -/
def get_current_user_keycloak (token_info : Except String TokenInfo)
    (db : List UserRow) (now : Int) (freshId : Nat) :
    Except String (UserRow × List UserRow) := do
  let info ← token_info
  if !info.active then throw "Token is not active."
  if pyFalsy info.preferred_username || pyFalsy info.keycloak_user_id then
    throw "Could not validate user."
  let username := info.preferred_username.getD ""
  let kc := info.keycloak_user_id.getD ""
  let candidate :=
    match findByKeycloakId db kc with
    | some u => some u
    | none => findByUsername db username
  match candidate with
  | none =>
      let newUser : UserRow :=
        { id := freshId
          username := username
          email := pyOr info.email (username ++ "@keycloak.local")
          password := ""
          keycloak_user_id := some kc
          last_synced_at := some now }
      let db2 := db ++ [newUser]
      if dbUnique db2 then pure (newUser, db2) else throw "IntegrityError"
  | some u =>
      let u1 := if pyFalsy u.keycloak_user_id
                then { u with keycloak_user_id := some kc } else u
      if should_sync u1 username info.email now then
        let u2 := { u1 with
          username := username
          email := pyOr info.email u1.email
          last_synced_at := some now }
        let db2 := updateRow db u.id u2
        if dbUnique db2 then pure (u2, db2) else throw "IntegrityError"
      else
        pure (u1, db)

/-- Legacy branch of `get_current_user` (`service.py` lines 137-155):
decode the JWT (`legacy_payload` is the decode outcome), require `sub`
and `id` claims, and resolve the row by primary key. -/
def get_current_user_legacy (legacy_payload : Except String LegacyPayload)
    (db : List UserRow) : Except String (UserRow × List UserRow) := do
  let p ← legacy_payload
  match p.sub, p.id with
  | some _, some uid =>
      match findById db uid with
      | none => throw "User not found."
      | some u => pure (u, db)
  | _, _ => throw "Could not validate user."

/-- Whole `get_current_user` (`service.py` lines 62-161): dispatch on
`USE_KEYCLOAK`, with the blanket `except (JWTError, Exception)` clause
that converts every exception — the inner `HTTPException`s included —
into `HTTPException(401, "Could not validate user.")`. -/
def get_current_user (use_keycloak : Bool) (token_info : Except String TokenInfo)
    (legacy_payload : Except String LegacyPayload) (db : List UserRow)
    (now : Int) (freshId : Nat) : Except HTTPException (UserRow × List UserRow) :=
  match (if use_keycloak
         then get_current_user_keycloak token_info db now freshId
         else get_current_user_legacy legacy_payload db) with
  | .ok r => .ok r
  | .error _ => .error ⟨401, "Could not validate user."⟩

/-- Model of `get_current_user_optional` (`service.py` lines 170-181): a
missing token yields `None`; otherwise the result of `get_current_user`,
with any `HTTPException` turned into `None`.  The token argument carries
the verification outcomes the underlying call would observe. -/
def get_current_user_optional (use_keycloak : Bool)
    (token : Option (Except String TokenInfo × Except String LegacyPayload))
    (db : List UserRow) (now : Int) (freshId : Nat) :
    Option (UserRow × List UserRow) :=
  match token with
  | none => none
  | some t =>
      match get_current_user use_keycloak t.1 t.2 db now freshId with
      | .ok r => some r
      | .error _ => none

/-- C9: the optional bearer-resolution entry point returns `None` both
when no token is supplied and whenever the underlying resolution raises
an `HTTPException` of any kind; it is exactly the error-erasure of
`get_current_user` and never propagates a 401. -/
theorem C9_optional_never_errors (use_keycloak : Bool)
    (token : Option (Except String TokenInfo × Except String LegacyPayload))
    (db : List UserRow) (now : Int) (freshId : Nat) :
    get_current_user_optional use_keycloak token db now freshId
      = token.bind (fun t =>
          (get_current_user use_keycloak t.1 t.2 db now freshId).toOption) := by
  cases token with
  | none => rfl
  | some t =>
      simp only [get_current_user_optional, Option.bind]
      cases get_current_user use_keycloak t.1 t.2 db now freshId <;> rfl

/-- C10: in federated mode, `get_current_user` either returns a user or
fails with the single response `HTTPException(401, "Could not validate
user.")` — the blanket `except` clause converts IdP transport errors,
missing claims, inactive tokens and database errors alike, and no other
status can surface. -/
theorem C10_single_401 (token_info : Except String TokenInfo)
    (legacy_payload : Except String LegacyPayload) (db : List UserRow)
    (now : Int) (freshId : Nat) :
    (∃ r, get_current_user true token_info legacy_payload db now freshId = .ok r) ∨
    get_current_user true token_info legacy_payload db now freshId
      = .error ⟨401, "Could not validate user."⟩ := by
  unfold get_current_user
  cases get_current_user_keycloak token_info db now freshId with
  | ok r => exact Or.inl ⟨r, rfl⟩
  | error e => exact Or.inr rfl

/-! Helper lemmas about Python truthiness. -/

theorem pyFalsy_false_eq {x : Option String} (h : pyFalsy x = false) :
    x = some (x.getD "") := by
  cases x with
  | none => simp [pyFalsy] at h
  | some s => rfl

theorem pyFalsy_false_ne {x : Option String} (h : pyFalsy x = false) :
    x.getD "" ≠ "" := by
  cases x with
  | none => simp [pyFalsy] at h
  | some s => simpa [pyFalsy] using h

theorem pyOr_of_falsy {x : Option String} (f : String) (h : pyFalsy x = true) :
    pyOr x f = f := by
  cases x with
  | none => rfl
  | some s => simp [pyFalsy] at h; simp [pyOr, h]

/-- Case analysis of a successful Keycloak-branch resolution: the returned
user's `keycloak_user_id` equals the token's `sub` claim, except when the
row was reached through the username fallback and already carried a
`keycloak_user_id`; then that row is returned with its stored value and
the table does not grow. -/
theorem keycloak_ok_kc (info : TokenInfo) (db : List UserRow) (now : Int)
    (freshId : Nat) (v : UserRow) (db2 : List UserRow)
    (h : get_current_user_keycloak (.ok info) db now freshId = .ok (v, db2)) :
    v.keycloak_user_id = info.keycloak_user_id ∨
      ∃ w, findByKeycloakId db (info.keycloak_user_id.getD "") = none ∧
           findByUsername db (info.preferred_username.getD "") = some w ∧
           pyFalsy w.keycloak_user_id = false ∧
           v.keycloak_user_id = w.keycloak_user_id ∧ db2.length = db.length := by
  unfold get_current_user_keycloak at h
  simp only [bind, Except.bind, pure, Except.pure] at h
  cases hactive : info.active with
  | false => simp [hactive] at h
  | true =>
  simp only [hactive, Bool.not_true, Bool.false_eq_true, ite_false] at h
  cases hguard : pyFalsy info.preferred_username || pyFalsy info.keycloak_user_id with
  | true => simp [hguard] at h
  | false =>
  simp only [hguard, Bool.false_eq_true, ite_false] at h
  have hkc : pyFalsy info.keycloak_user_id = false :=
    (Bool.or_eq_false_iff.mp hguard).2
  cases hfind : findByKeycloakId db (info.keycloak_user_id.getD "") with
  | some u =>
    simp only [hfind] at h
    have hu : u.keycloak_user_id = some (info.keycloak_user_id.getD "") := by
      have := List.find?_some hfind
      exact of_decide_eq_true this
    have hufalsy : pyFalsy u.keycloak_user_id = false := by
      rw [hu]
      simpa [pyFalsy] using pyFalsy_false_ne hkc
    simp only [hufalsy, Bool.false_eq_true, ite_false] at h
    left
    split at h
    · split at h
      · cases h
        rw [hu, pyFalsy_false_eq hkc]
        rfl
      · exact absurd h (by simp)
    · cases h
      rw [hu, pyFalsy_false_eq hkc]
      rfl
  | none =>
    simp only [hfind] at h
    cases hfu : findByUsername db (info.preferred_username.getD "") with
    | none =>
      simp only [hfu] at h
      split at h
      · cases h
        left
        exact (pyFalsy_false_eq hkc).symm
      · exact absurd h (by simp)
    | some w =>
      simp only [hfu] at h
      cases hwf : pyFalsy w.keycloak_user_id with
      | true =>
        simp only [hwf, ite_true] at h
        left
        split at h
        · split at h
          · cases h
            exact (pyFalsy_false_eq hkc).symm
          · exact absurd h (by simp)
        · cases h
          exact (pyFalsy_false_eq hkc).symm
      | false =>
        simp only [hwf, Bool.false_eq_true, ite_false] at h
        right
        refine ⟨w, rfl, rfl, hwf, ?_⟩
        split at h
        · split at h
          · cases h
            exact ⟨rfl, by simp [updateRow]⟩
          · exact absurd h (by simp)
        · cases h
          exact ⟨rfl, rfl⟩

/-! Concrete scenarios used to exercise the federated resolution. -/

/-- Row already bound to the federated identity `abc`. -/
def uGrace : UserRow := ⟨1, "grace", "g@x.io", "", some "abc", some 0⟩

/-- Second row occupying the username `grace.h`. -/
def uGraceH : UserRow := ⟨2, "grace.h", "h@x.io", "", some "other", some 0⟩

/-- Claims whose `sub` matches no row but whose `preferred_username`
matches `uGrace`, which already carries a different federated id. -/
def infoDifferentSub : TokenInfo := ⟨some "different", some "grace", some "g@x.io", true⟩

/-- Claims that resolve `uGrace` by federated id but carry the username
`grace.h`, already taken by `uGraceH`. -/
def infoDrift : TokenInfo := ⟨some "abc", some "grace.h", some "h2@x.io", true⟩

/-- Claims with no email claim at all. -/
def infoNoEmail : TokenInfo := ⟨some "abc", some "grace", none, true⟩

/-- Legacy-token oracle for calls made in federated mode (never consulted). -/
def legUnused : Except String LegacyPayload := .error "not decoded"

/-- Row produced by the JIT path for `infoNoEmail` on an empty table. -/
def jitGrace : UserRow := ⟨1, "grace", "grace@keycloak.local", "", some "abc", some 0⟩

/-- C1, counterexample: with `{sub := "different", preferred_username :=
"grace"}` against a table whose only row has `federated_id = "abc"` and
username `grace`, the call returns that row — its `federated_id` still
`"abc"`, different from the presented `sub` — and inserts no new row,
contradicting both the claimed equality and the claimed JIT provisioning. -/
theorem C1_counterexample :
    get_current_user true (.ok infoDifferentSub) legUnused [uGrace] 0 2
      = .ok (uGrace, [uGrace]) ∧
    uGrace.keycloak_user_id = some "abc" ∧
    infoDifferentSub.keycloak_user_id = some "different" ∧
    (some "abc" : Option String) ≠ some "different" :=
  ⟨rfl, rfl, rfl, by decide⟩

/-- C1, amended: after a federated `ResolveBearer` that returns a user,
the user's `federated_id` equals the token's `sub` claim, EXCEPT when the
resolution fell back to the username lookup and hit a row whose
`federated_id` was already set: that row is returned with its stored
`federated_id` unchanged and no new row is provisioned. -/
theorem C1_resolve_federated_id (token_info : Except String TokenInfo)
    (legacy_payload : Except String LegacyPayload) (db : List UserRow)
    (now : Int) (freshId : Nat) (v : UserRow) (db2 : List UserRow)
    (h : get_current_user true token_info legacy_payload db now freshId = .ok (v, db2)) :
    ∃ info, token_info = .ok info ∧
      (v.keycloak_user_id = info.keycloak_user_id ∨
       ∃ w, findByKeycloakId db (info.keycloak_user_id.getD "") = none ∧
            findByUsername db (info.preferred_username.getD "") = some w ∧
            pyFalsy w.keycloak_user_id = false ∧
            v.keycloak_user_id = w.keycloak_user_id ∧ db2.length = db.length) := by
  unfold get_current_user at h
  simp only [if_true] at h
  cases htok : token_info with
  | error e =>
      rw [htok] at h
      simp [get_current_user_keycloak, bind, Except.bind] at h
  | ok info =>
      rw [htok] at h
      refine ⟨info, rfl, ?_⟩
      cases hk : get_current_user_keycloak (.ok info) db now freshId with
      | error e => rw [hk] at h; exact absurd h (by simp)
      | ok r =>
          rw [hk] at h
          cases h
          exact keycloak_ok_kc info db now freshId v db2 hk

/-- C1, witness: the amended theorem applied to the counterexample
scenario, discharging its hypothesis on a concrete successful call. -/
theorem C1_resolve_federated_id_witness :
    ∃ info, (.ok infoDifferentSub : Except String TokenInfo) = .ok info ∧
      (uGrace.keycloak_user_id = info.keycloak_user_id ∨
       ∃ w, findByKeycloakId [uGrace] (info.keycloak_user_id.getD "") = none ∧
            findByUsername [uGrace] (info.preferred_username.getD "") = some w ∧
            pyFalsy w.keycloak_user_id = false ∧
            uGrace.keycloak_user_id = w.keycloak_user_id ∧
            ([uGrace] : List UserRow).length = ([uGrace] : List UserRow).length) :=
  C1_resolve_federated_id (.ok infoDifferentSub) legUnused [uGrace] 0 2 uGrace [uGrace] rfl

/-- C3, counterexample: claims resolving `uGrace` by federated id carry
the username `grace.h`, already owned by `uGraceH`.  The sync write hits
the uniqueness constraint and — there being no exception handling around
the commit — the whole call fails with 401 instead of keeping the stale
values, advancing `last_synced_at` and returning the user. -/
theorem C3_counterexample :
    get_current_user true (.ok infoDrift) legUnused [uGrace, uGraceH] 0 3
      = .error ⟨401, "Could not validate user."⟩ ∧
    should_sync uGrace "grace.h" (some "h2@x.io") 0 = true ∧
    dbUnique (updateRow [uGrace, uGraceH] 1
      { uGrace with username := "grace.h", email := "h2@x.io",
                    last_synced_at := some 0 }) = false :=
  ⟨rfl, rfl, rfl⟩

/-- C3, amended: a unique-constraint violation while writing the sync IS
fatal, whichever rung of the resolution ladder produced the candidate —
found by federated id, or by the username fallback (including the
legacy-row upgrade, where the committed record also carries the newly
set `keycloak_user_id`): the transaction is rolled back — the candidate
row keeps its stale username, email and `last_synced_at` — and the call
raises, surfacing as the blanket `HTTPException(401, "Could not validate
user.")` instead of returning the resolved user. -/
theorem C3_sync_violation_fatal (info : TokenInfo)
    (legacy_payload : Except String LegacyPayload) (db : List UserRow)
    (now : Int) (freshId : Nat) (u : UserRow)
    (hactive : info.active = true)
    (hpu : pyFalsy info.preferred_username = false)
    (hkc : pyFalsy info.keycloak_user_id = false)
    (hcand : findByKeycloakId db (info.keycloak_user_id.getD "") = some u ∨
      (findByKeycloakId db (info.keycloak_user_id.getD "") = none ∧
       findByUsername db (info.preferred_username.getD "") = some u))
    (hsync : should_sync u (info.preferred_username.getD "") info.email now = true)
    (hviol : dbUnique (updateRow db u.id
      { (if pyFalsy u.keycloak_user_id
         then { u with keycloak_user_id := some (info.keycloak_user_id.getD "") }
         else u) with
        username := info.preferred_username.getD ""
        email := pyOr info.email u.email
        last_synced_at := some now }) = false) :
    get_current_user true (.ok info) legacy_payload db now freshId
      = .error ⟨401, "Could not validate user."⟩ := by
  unfold get_current_user
  simp only [if_true]
  suffices h : get_current_user_keycloak (.ok info) db now freshId
      = .error "IntegrityError" by
    rw [h]
  unfold get_current_user_keycloak
  rcases hcand with hfind | ⟨hfind, hfu⟩
  · have hufalsy : pyFalsy u.keycloak_user_id = false := by
      have hu : u.keycloak_user_id = some (info.keycloak_user_id.getD "") := by
        have h4 := hfind
        unfold findByKeycloakId at h4
        have := List.find?_some h4
        exact of_decide_eq_true this
      rw [hu]
      simpa [pyFalsy] using pyFalsy_false_ne hkc
    simp only [bind, Except.bind, pure, Except.pure, hactive, Bool.not_true,
      Bool.false_eq_true, ite_false, hpu, hkc, Bool.or_self, hfind, hufalsy,
      hsync, ite_true]
    split
    · rename_i hX
      rw [hufalsy] at hviol
      simp only [Bool.false_eq_true, ite_false] at hviol
      exact absurd (hviol.symm.trans hX) (by decide)
    · rfl
  · cases hwf : pyFalsy u.keycloak_user_id with
    | true =>
        have hsync1 : should_sync
            { u with keycloak_user_id := some (info.keycloak_user_id.getD "") }
            (info.preferred_username.getD "") info.email now = true := hsync
        simp only [bind, Except.bind, pure, Except.pure, hactive, Bool.not_true,
          Bool.false_eq_true, ite_false, hpu, hkc, Bool.or_self, hfind, hfu,
          hwf, ite_true, hsync1]
        split
        · rename_i hX
          rw [hwf] at hviol
          simp only [ite_true] at hviol
          exact absurd (hviol.symm.trans hX) (by decide)
        · rfl
    | false =>
        simp only [bind, Except.bind, pure, Except.pure, hactive, Bool.not_true,
          Bool.false_eq_true, ite_false, hpu, hkc, Bool.or_self, hfind, hfu,
          hwf, hsync, ite_true]
        split
        · rename_i hX
          rw [hwf] at hviol
          simp only [Bool.false_eq_true, ite_false] at hviol
          exact absurd (hviol.symm.trans hX) (by decide)
        · rfl

/-- Legacy row (no `keycloak_user_id`, never synced) that a first
federated login will upgrade. -/
def uLegacyGrace : UserRow := ⟨1, "grace", "g@x.io", "", none, none⟩

/-- Row whose unique email the upgrade sync will collide with. -/
def uBob : UserRow := ⟨2, "bob", "h2@x.io", "", some "other", some 0⟩

/-- Claims that hit no row by federated id, match `uLegacyGrace` by the
username fallback (legacy-row upgrade), and carry the email of `uBob`. -/
def infoUpgradeCollide : TokenInfo := ⟨some "abc", some "grace", some "h2@x.io", true⟩

/-- C3, witness: the amended theorem applied to a username-fallback
candidate — a legacy-row upgrade whose claim email collides with another
unique email of another row — discharging every hypothesis concretely. -/
theorem C3_sync_violation_fatal_witness :
    get_current_user true (.ok infoUpgradeCollide) legUnused
      [uLegacyGrace, uBob] 0 3
      = .error ⟨401, "Could not validate user."⟩ :=
  C3_sync_violation_fatal infoUpgradeCollide legUnused [uLegacyGrace, uBob]
    0 3 uLegacyGrace rfl rfl rfl (Or.inr ⟨rfl, rfl⟩) rfl rfl

/-- C4, counterexample: JIT provisioning with an absent email claim uses
the synthetic placeholder domain `keycloak.local`, not the
`federated.local` the claim states. -/
theorem C4_counterexample :
    get_current_user true (.ok infoNoEmail) legUnused [] 0 1
      = .ok (jitGrace, [jitGrace]) ∧
    jitGrace.email = "grace@keycloak.local" ∧
    jitGrace.email ≠ "grace@federated.local" :=
  ⟨rfl, rfl, by decide⟩

/-- C4, amended: JIT provisioning (no candidate by federated id or by
username) with an empty email claim inserts a row with `email =
"{username}@keycloak.local"`, `password_hash = ""`, `federated_id =
claims.federated_id` and `last_synced_at = now()`, and returns it. -/
theorem C4_jit_placeholder (info : TokenInfo)
    (legacy_payload : Except String LegacyPayload) (db : List UserRow)
    (now : Int) (freshId : Nat)
    (hactive : info.active = true)
    (hpu : pyFalsy info.preferred_username = false)
    (hkc : pyFalsy info.keycloak_user_id = false)
    (hem : pyFalsy info.email = true)
    (hnf1 : findByKeycloakId db (info.keycloak_user_id.getD "") = none)
    (hnf2 : findByUsername db (info.preferred_username.getD "") = none)
    (huniq : dbUnique (db ++ [⟨freshId, info.preferred_username.getD "",
        info.preferred_username.getD "" ++ "@keycloak.local", "",
        some (info.keycloak_user_id.getD ""), some now⟩]) = true) :
    get_current_user true (.ok info) legacy_payload db now freshId
      = .ok (⟨freshId, info.preferred_username.getD "",
          info.preferred_username.getD "" ++ "@keycloak.local", "",
          some (info.keycloak_user_id.getD ""), some now⟩,
        db ++ [⟨freshId, info.preferred_username.getD "",
          info.preferred_username.getD "" ++ "@keycloak.local", "",
          some (info.keycloak_user_id.getD ""), some now⟩]) := by
  unfold get_current_user
  simp only [if_true]
  suffices h : get_current_user_keycloak (.ok info) db now freshId
      = .ok (⟨freshId, info.preferred_username.getD "",
          info.preferred_username.getD "" ++ "@keycloak.local", "",
          some (info.keycloak_user_id.getD ""), some now⟩,
        db ++ [⟨freshId, info.preferred_username.getD "",
          info.preferred_username.getD "" ++ "@keycloak.local", "",
          some (info.keycloak_user_id.getD ""), some now⟩]) by
    rw [h]
  unfold get_current_user_keycloak
  simp only [bind, Except.bind, pure, Except.pure, hactive, Bool.not_true,
    Bool.false_eq_true, ite_false, hpu, hkc, Bool.or_self, hnf1, hnf2,
    pyOr_of_falsy _ hem, huniq, ite_true]

/-- C4, witness: the amended theorem on the concrete empty-table
scenario. -/
theorem C4_jit_placeholder_witness :
    get_current_user true (.ok infoNoEmail) legUnused [] 0 1
      = .ok (⟨1, (infoNoEmail.preferred_username.getD ""),
          (infoNoEmail.preferred_username.getD "") ++ "@keycloak.local", "",
          some (infoNoEmail.keycloak_user_id.getD ""), some 0⟩,
        [] ++ [⟨1, (infoNoEmail.preferred_username.getD ""),
          (infoNoEmail.preferred_username.getD "") ++ "@keycloak.local", "",
          some (infoNoEmail.keycloak_user_id.getD ""), some 0⟩]) :=
  C4_jit_placeholder infoNoEmail legUnused [] 0 1 rfl rfl rfl rfl rfl rfl rfl

/-- Staleness policy exactly as the specification words it: the email
clause is guarded by the claim being non-empty.  Stated only to be
compared against the implemented `should_sync`. -/
def should_sync_spec (u : UserRow) (username : String)
    (claimEmail : Option String) (now : Int) : Bool :=
  match u.last_synced_at with
  | none => true
  | some t =>
      decide (now - t > 86400) || decide (u.username ≠ username) ||
      (!(pyFalsy claimEmail) && emailDiffers u.email claimEmail)

/-- C5, counterexample: a row synced just now, whose username matches
the claims, with NO email claim present: every condition of the claimed
disjunction is false (the spec-worded predicate is false), yet the
implemented `should_sync` is true — an empty email claim alone does
trigger a sync. -/
theorem C5_counterexample :
    should_sync uGrace "grace" none 0 = true ∧
    should_sync_spec uGrace "grace" none 0 = false ∧
    uGrace.last_synced_at = some 0 ∧
    uGrace.username = "grace" ∧
    ¬((0 : Int) - 0 > 86400) :=
  ⟨rfl, rfl, rfl, rfl, by decide⟩

/-- C5, amended: `should_sync` is true exactly when `last_synced_at` is
null, or the sync is older than the 86400 s TTL, or the username differs,
or the email comparison against the raw claim differs — where an absent
email claim always counts as different, and a present-but-empty one
differs from any non-empty row email.  There is no non-empty guard. -/
theorem C5_should_sync_iff (u : UserRow) (username : String)
    (claimEmail : Option String) (now : Int) :
    should_sync u username claimEmail now = true ↔
      (u.last_synced_at = none ∨
       (∃ t, u.last_synced_at = some t ∧ now - t > 86400) ∨
       u.username ≠ username ∨
       emailDiffers u.email claimEmail = true) := by
  unfold should_sync
  cases hl : u.last_synced_at with
  | none => simp
  | some t =>
      simp only [Bool.or_eq_true, decide_eq_true_eq, Option.some.injEq]
      constructor
      · rintro ((h | h) | h)
        · exact Or.inr (Or.inl ⟨t, rfl, h⟩)
        · exact Or.inr (Or.inr (Or.inl h))
        · exact Or.inr (Or.inr (Or.inr h))
      · rintro (h | ⟨t2, ht2, h⟩ | h | h)
        · exact absurd h (by simp)
        · cases ht2
          exact Or.inl (Or.inl h)
        · exact Or.inl (Or.inr h)
        · exact Or.inr h

/-! Local password verification (`service.py` lines 35-59). -/

/-- Model of `bcrypt.checkpw` from the bcrypt library (an external
dependency): it raises `ValueError("Invalid salt")` unless the stored
value is a well-formed bcrypt hash — every bcrypt hash starts with the
`$2` prefix, so the empty string is rejected.  The comparison performed
on well-formed hashes is kept abstract in the parameter `bcmatch`, so
nothing below depends on it. -/
def bcrypt_checkpw (bcmatch : String → String → Bool)
    (password hashed : String) : Except String Bool :=
  if hashed.startsWith "$2" then .ok (bcmatch password hashed)
  else .error "Invalid salt"

/-- Model of `verify_password` (`service.py` lines 35-39): a direct call
to `bcrypt.checkpw`; an exception there propagates. -/
def verify_password (bcmatch : String → String → Bool)
    (plain_password hashed_password : String) : Except String Bool :=
  bcrypt_checkpw bcmatch plain_password hashed_password

/-- Model of `authenticate_user` (`service.py` lines 49-59): resolve the
row by username, return `None` when missing or when the password does
not verify; an exception from `verify_password` propagates. -/
def authenticate_user (bcmatch : String → String → Bool)
    (username password : String) (db : List UserRow) :
    Except String (Option UserRow) := do
  match findByUsername db username with
  | none => pure none
  | some user =>
      let ok ← verify_password bcmatch password user.password
      if !ok then pure none else pure (some user)

/-- C6: a row whose stored `password_hash` is the empty string never
verifies any candidate password (the empty string included), whatever
comparison bcrypt would perform: `verify_password` raises instead of
succeeding, and `authenticate_user` never returns that — or any — user
as authenticated for it. -/
theorem C6_empty_hash_rejects (bcmatch : String → String → Bool)
    (username password : String) (db : List UserRow) (u : UserRow)
    (hfind : findByUsername db username = some u)
    (hempty : u.password = "") :
    verify_password bcmatch password u.password = .error "Invalid salt" ∧
    (∀ b, verify_password bcmatch password u.password ≠ .ok b) ∧
    authenticate_user bcmatch username password db = .error "Invalid salt" ∧
    (∀ w, authenticate_user bcmatch username password db ≠ .ok (some w)) := by
  have hv : verify_password bcmatch password u.password = .error "Invalid salt" := by
    rw [hempty]
    rfl
  refine ⟨hv, ?_, ?_, ?_⟩
  · intro b hb
    rw [hv] at hb
    exact Except.noConfusion hb
  · unfold authenticate_user
    rw [hfind]
    simp only [bind, Except.bind, hv]
  · intro w hw
    unfold authenticate_user at hw
    rw [hfind] at hw
    simp only [bind, Except.bind, hv] at hw
    exact Except.noConfusion hw

/-- Row with the federated sentinel `password_hash = ""`. -/
def uNoPassword : UserRow := ⟨7, "ada", "ada@x.io", "", some "kc-ada", some 0⟩

/-- C6, witness: even a bcrypt comparison that accepts everything cannot
authenticate against the empty hash, tried with the empty password. -/
theorem C6_empty_hash_rejects_witness :
    verify_password (fun _ _ => true) "" uNoPassword.password
      = .error "Invalid salt" ∧
    (∀ b, verify_password (fun _ _ => true) "" uNoPassword.password ≠ .ok b) ∧
    authenticate_user (fun _ _ => true) "ada" "" [uNoPassword]
      = .error "Invalid salt" ∧
    (∀ w, authenticate_user (fun _ _ => true) "ada" "" [uNoPassword]
      ≠ .ok (some w)) :=
  C6_empty_hash_rejects (fun _ _ => true) "ada" "" [uNoPassword] uNoPassword
    rfl rfl

/-! Username generation of `register` (`controller.py` lines 25-38). -/

/-- Decimal digits of a natural number, most significant first; `fuel`
makes the recursion structural (the value is independent of the fuel as
soon as `n < fuel`).  Models the digits Python's `str()` prints for a
nonnegative int. -/
def decDigitsAux : Nat → Nat → List Nat
  | 0, _ => []
  | fuel+1, n => if n < 10 then [n] else decDigitsAux fuel (n / 10) ++ [n % 10]

/-- Decimal rendering of a nonnegative int, as interpolated by the
f-string `f"{base_username}{counter}"`. -/
def pyStr (n : Nat) : String := ⟨(decDigitsAux (n + 1) n).map Nat.digitChar⟩

/-- Value of a most-significant-first digit list. -/
def decVal (l : List Nat) : Nat := l.foldl (fun a d => a * 10 + d) 0

theorem decVal_append_digit (l : List Nat) (d : Nat) :
    decVal (l ++ [d]) = decVal l * 10 + d := by
  unfold decVal
  rw [List.foldl_append]
  rfl

theorem decVal_decDigitsAux : ∀ fuel n, n < fuel →
    decVal (decDigitsAux fuel n) = n := by
  intro fuel
  induction fuel with
  | zero => intro n h; omega
  | succ fuel ih =>
      intro n h
      by_cases h10 : n < 10
      · simp [decDigitsAux, h10, decVal]
      · have hdiv : n / 10 < fuel := by
          have h1 : n / 10 < n := Nat.div_lt_self (by omega) (by omega)
          omega
        simp only [decDigitsAux, h10, if_false]
        rw [decVal_append_digit, ih (n / 10) hdiv]
        omega

theorem decDigitsAux_lt_ten : ∀ fuel n d, d ∈ decDigitsAux fuel n → d < 10 := by
  intro fuel
  induction fuel with
  | zero => intro n d h; simp [decDigitsAux] at h
  | succ fuel ih =>
      intro n d h
      by_cases h10 : n < 10
      · simp [decDigitsAux, h10] at h
        omega
      · simp only [decDigitsAux, h10, if_false, List.mem_append,
          List.mem_singleton] at h
        rcases h with h | h
        · exact ih _ _ h
        · subst h
          exact Nat.mod_lt _ (by omega)

theorem decDigitsAux_ne_nil (fuel n : Nat) : decDigitsAux (fuel + 1) n ≠ [] := by
  by_cases h10 : n < 10
  · simp [decDigitsAux, h10]
  · simp [decDigitsAux, h10]

theorem digitChar_inj_lt : ∀ d1 < 10, ∀ d2 < 10,
    Nat.digitChar d1 = Nat.digitChar d2 → d1 = d2 := by decide

theorem map_digitChar_inj : ∀ l1 l2 : List Nat, (∀ d ∈ l1, d < 10) →
    (∀ d ∈ l2, d < 10) → l1.map Nat.digitChar = l2.map Nat.digitChar →
    l1 = l2 := by
  intro l1
  induction l1 with
  | nil => intro l2 _ _ h; cases l2 with
      | nil => rfl
      | cons b t => simp at h
  | cons a t ih =>
      intro l2 h1 h2 h
      cases l2 with
      | nil => simp at h
      | cons b t2 =>
          simp only [List.map_cons, List.cons.injEq] at h
          have ha : a = b := digitChar_inj_lt a (h1 a (by simp)) b
            (h2 b (by simp)) h.1
          have ht : t = t2 := ih t2 (fun d hd => h1 d (by simp [hd]))
            (fun d hd => h2 d (by simp [hd])) h.2
          rw [ha, ht]

theorem pyStr_injective : Function.Injective pyStr := by
  intro m n h
  have hdata : (decDigitsAux (m + 1) m).map Nat.digitChar
      = (decDigitsAux (n + 1) n).map Nat.digitChar := congrArg String.data h
  have hdig := map_digitChar_inj _ _ (fun d hd => decDigitsAux_lt_ten _ _ _ hd)
    (fun d hd => decDigitsAux_lt_ten _ _ _ hd) hdata
  have := congrArg decVal hdig
  rwa [decVal_decDigitsAux _ _ (Nat.lt_succ_self m),
    decVal_decDigitsAux _ _ (Nat.lt_succ_self n)] at this

theorem pyStr_length_pos (n : Nat) : 0 < (pyStr n).length := by
  show 0 < ((decDigitsAux (n + 1) n).map Nat.digitChar).length
  rw [List.length_map]
  exact List.length_pos.mpr (decDigitsAux_ne_nil n n)

/-- Candidate usernames tried by the probe loop: the base first, then
`base1`, `base2`, ... (`controller.py` lines 28-38). -/
def candidateUsername (base : String) : Nat → String
  | 0 => base
  | k+1 => base ++ pyStr (k+1)

theorem candidateUsername_injective (base : String) :
    Function.Injective (candidateUsername base) := by
  intro i j h
  have hlen : ∀ k, (base ++ pyStr k).length = base.length + (pyStr k).length :=
    fun k => String.length_append base (pyStr k)
  cases i with
  | zero =>
      cases j with
      | zero => rfl
      | succ j =>
          exfalso
          have := congrArg String.length h
          simp only [candidateUsername] at this
          rw [hlen] at this
          have := pyStr_length_pos (j + 1)
          omega
  | succ i =>
      cases j with
      | zero =>
          exfalso
          have := congrArg String.length h
          simp only [candidateUsername] at this
          rw [hlen] at this
          have := pyStr_length_pos (i + 1)
          omega
      | succ j =>
          simp only [candidateUsername] at h
          have hdata := congrArg String.data h
          simp only [String.data_append] at hdata
          have := List.append_cancel_left hdata
          have hstr : pyStr (i + 1) = pyStr (j + 1) := by
            apply congrArg String.mk this
          have := pyStr_injective hstr
          omega

/-- Linear probe of `register` (`controller.py` lines 31-38): try
candidates in order until one is absent from the table of existing
usernames; `fuel` bounds the iteration count (one more than the table
size always suffices, as proved below). -/
def probeUsername (taken : List String) (base : String) : Nat → Nat → Option String
  | 0, _ => none
  | fuel+1, k =>
      if candidateUsername base k ∈ taken then
        probeUsername taken base fuel (k + 1)
      else some (candidateUsername base k)

/-- Username selection of `register`: probe starting at the bare base
with enough fuel to be exhaustive. -/
def generate_username (taken : List String) (base : String) : Option String :=
  probeUsername taken base (taken.length + 1) 0

theorem exists_free_candidate (taken : List String) (base : String) :
    ∃ m ≤ taken.length, candidateUsername base m ∉ taken := by
  by_contra hall
  push_neg at hall
  have hsub : ((List.range (taken.length + 1)).map (candidateUsername base))
      ⊆ taken := by
    intro x hx
    rcases List.mem_map.mp hx with ⟨k, hk, rfl⟩
    exact hall k (Nat.lt_succ_iff.mp (List.mem_range.mp hk))
  have hnd : ((List.range (taken.length + 1)).map (candidateUsername base)).Nodup :=
    (List.nodup_range _).map (candidateUsername_injective base)
  have hle := (hnd.subperm hsub).length_le
  simp only [List.length_map, List.length_range] at hle
  omega

theorem probeUsername_spec (taken : List String) (base : String) :
    ∀ fuel k, (∃ m < fuel, candidateUsername base (k + m) ∉ taken) →
    ∃ m, probeUsername taken base fuel k
        = some (candidateUsername base (k + m)) ∧
      candidateUsername base (k + m) ∉ taken ∧
      ∀ j < m, candidateUsername base (k + j) ∈ taken := by
  intro fuel
  induction fuel with
  | zero =>
      intro k h
      rcases h with ⟨m, hm, _⟩
      omega
  | succ fuel ih =>
      intro k h
      by_cases hk : candidateUsername base k ∈ taken
      · rcases h with ⟨m, hm, hfree⟩
        cases m with
        | zero => exact absurd hk (by simpa using hfree)
        | succ m =>
            have h2 : ∃ m2 < fuel, candidateUsername base (k + 1 + m2) ∉ taken := by
              refine ⟨m, by omega, ?_⟩
              have : k + 1 + m = k + (m + 1) := by omega
              rwa [this]
            rcases ih (k + 1) h2 with ⟨m2, hprobe, hfree2, hprev⟩
            refine ⟨m2 + 1, ?_, ?_, ?_⟩
            · simp only [probeUsername, hk, if_true]
              have : k + (m2 + 1) = k + 1 + m2 := by omega
              rw [this]
              exact hprobe
            · have : k + (m2 + 1) = k + 1 + m2 := by omega
              rwa [this]
            · intro j hj
              cases j with
              | zero => simpa using hk
              | succ j =>
                  have : k + (j + 1) = k + 1 + j := by omega
                  rw [this]
                  exact hprev j (by omega)
      · refine ⟨0, ?_, by simpa using hk, by omega⟩
        simp only [probeUsername, hk, if_false, Nat.add_zero]

theorem probeUsername_free (taken : List String) (base : String) :
    ∀ fuel k u, probeUsername taken base fuel k = some u → u ∉ taken := by
  intro fuel
  induction fuel with
  | zero => intro k u h; exact absurd h (by simp [probeUsername])
  | succ fuel ih =>
      intro k u h
      by_cases hk : candidateUsername base k ∈ taken
      · simp only [probeUsername, hk, if_true] at h
        exact ih (k + 1) u h
      · simp only [probeUsername, hk, if_false, Option.some.injEq] at h
        rwa [h] at hk

/-- Python's `s.lower()` (chars are mapped independently; ASCII case
mapping). -/
def pyLower (s : String) : String := ⟨s.data.map Char.toLower⟩

/-- Python's `s.replace(' ', '.')`. -/
def pyDots (s : String) : String :=
  ⟨s.data.map (fun c => if c = ' ' then '.' else c)⟩

/-- Username base of `register` (`controller.py` line 27):
`first_name.lower().replace(' ', '.') + "." + last_name.lower().replace(' ', '.')`. -/
def base_username (first_name last_name : String) : String :=
  pyDots (pyLower first_name) ++ "." ++ pyDots (pyLower last_name)

theorem base_username_eq_spec (first_name last_name : String) :
    base_username first_name last_name
      = pyDots (pyLower (first_name ++ "." ++ last_name)) := by
  unfold base_username pyDots pyLower
  apply congrArg String.mk
  simp only [String.data_append, List.map_append]
  rfl

/-- C7: the register username is the base `first.last` (lowercased,
spaces to dots — equal whether the transformation is applied to the
parts or to the concatenation), or the first free `base{k}` when taken:
the probe always succeeds, the chosen name is absent from the table at
selection time, every earlier candidate in the sequence is taken, and a
name chosen against a table is never one of its entries — so repeated
registrations yield `john.doe`, `john.doe1`, `john.doe2`, … and no two
successful registrations share a username. -/
theorem C7_register_username :
    (∀ (taken : List String) (first_name last_name : String), ∃ k,
      generate_username taken (base_username first_name last_name)
          = some (candidateUsername (base_username first_name last_name) k) ∧
        candidateUsername (base_username first_name last_name) k ∉ taken ∧
        (∀ j < k, candidateUsername (base_username first_name last_name) j ∈ taken) ∧
        base_username first_name last_name
          = pyDots (pyLower (first_name ++ "." ++ last_name))) ∧
    (∀ (taken : List String) (base u : String),
      generate_username taken base = some u → u ∉ taken) ∧
    base_username "John" "Doe" = "john.doe" ∧
    generate_username [] (base_username "John" "Doe") = some "john.doe" ∧
    generate_username ["john.doe"] (base_username "John" "Doe")
      = some "john.doe1" ∧
    generate_username ["john.doe", "john.doe1"] (base_username "John" "Doe")
      = some "john.doe2" := by
  refine ⟨?_, ?_, by decide, by decide, by decide, by decide⟩
  · intro taken first_name last_name
    rcases exists_free_candidate taken (base_username first_name last_name) with
      ⟨m, hm, hfree⟩
    rcases probeUsername_spec taken (base_username first_name last_name)
        (taken.length + 1) 0 ⟨m, by omega, by simpa using hfree⟩ with
      ⟨k, hprobe, hfreek, hprev⟩
    exact ⟨k, by simpa using hprobe, by simpa using hfreek,
      fun j hj => by simpa using hprev j hj,
      base_username_eq_spec first_name last_name⟩
  · intro taken base u h
    exact probeUsername_free taken base (taken.length + 1) 0 u h

/-- C7, witness: the no-reuse part of the theorem applied to the third
registration of `John Doe`: the chosen `john.doe2` is not among the two
names already taken. -/
theorem C7_register_username_witness :
    ("john.doe2" : String) ∉ (["john.doe", "john.doe1"] : List String) :=
  C7_register_username.2.1 ["john.doe", "john.doe1"]
    (base_username "John" "Doe") "john.doe2" (by decide)

/-! Operations on the users table, for the federated-id immutability
invariant. -/

/-- Body of `RegisterUserRequest` (`auth/models.py`), the fields the
username/email logic consumes. -/
structure RegisterRequest where
  email : String
  password : String
  first_name : String
  last_name : String
  deriving Repr, DecidableEq

/-- Federated-mode `register` (`controller.py` lines 25-94): probe a
username, reject a taken email with 400, provision in the IdP
(`fid_result` is the outcome of `create_user_in_keycloak`; any exception
becomes a 500), insert the local row with `password = ""` and the
returned Keycloak id; a commit that violates a constraint also surfaces
as the blanket 500.  The probe-exhausted branch is unreachable
(`probeUsername_spec`) and modelled as the same 500. -/
def register_keycloak (req : RegisterRequest) (fid_result : Except String String)
    (db : List UserRow) (now : Int) (freshId : Nat) :
    Except HTTPException (UserRow × List UserRow) :=
  match generate_username (db.map (·.username))
      (base_username req.first_name req.last_name) with
  | none => .error ⟨500, "Failed to create user"⟩
  | some username =>
    match findByEmail db req.email with
    | some _ => .error ⟨400, "Email already exists"⟩
    | none =>
      match fid_result with
      | .error _ => .error ⟨500, "Failed to create user"⟩
      | .ok kc_id =>
          let newUser : UserRow := ⟨freshId, username, req.email, "", some kc_id, some now⟩
          let db2 := db ++ [newUser]
          if dbUnique db2 then .ok (newUser, db2)
          else .error ⟨500, "Failed to create user"⟩

/-- Legacy-mode `register` (`controller.py` lines 95-109): same username
probe and email check, then insert with the bcrypt hash and no federated
fields; an integrity error propagates (500). -/
def register_legacy (req : RegisterRequest) (hashed : String)
    (db : List UserRow) (freshId : Nat) :
    Except HTTPException (UserRow × List UserRow) :=
  match generate_username (db.map (·.username))
      (base_username req.first_name req.last_name) with
  | none => .error ⟨500, "Failed to create user"⟩
  | some username =>
    match findByEmail db req.email with
    | some _ => .error ⟨400, "Email already exists"⟩
    | none =>
        let newUser : UserRow := ⟨freshId, username, req.email, hashed, none, none⟩
        let db2 := db ++ [newUser]
        if dbUnique db2 then .ok (newUser, db2)
        else .error ⟨500, "IntegrityError"⟩

/-- Core operations of the Auth Facade, each carrying the external
inputs (IdP outcomes, clock, fresh primary key) it consumes.  `login`
(`controller.py` lines 112-149) carries nothing: in federated mode it
never touches the table and in legacy mode it performs a single select
through `authenticate_user`, so as a state transformer it is the
identity. -/
inductive AuthOp where
  | registerFederated (req : RegisterRequest) (fid_result : Except String String)
      (now : Int) (freshId : Nat)
  | registerLegacy (req : RegisterRequest) (hashed : String) (freshId : Nat)
  | login
  | resolveBearerFederated (token_info : Except String TokenInfo)
      (now : Int) (freshId : Nat)
  | resolveBearerLegacy (legacy_payload : Except String LegacyPayload)

/-- Effect of one operation on the users table: the table it commits, or
the unchanged table when the operation fails. -/
def applyOp (op : AuthOp) (db : List UserRow) : List UserRow :=
  match op with
  | .registerFederated req fid now fresh =>
      match register_keycloak req fid db now fresh with
      | .ok (_, db2) => db2
      | .error _ => db
  | .registerLegacy req hashed fresh =>
      match register_legacy req hashed db fresh with
      | .ok (_, db2) => db2
      | .error _ => db
  | .login => db
  | .resolveBearerFederated tok now fresh =>
      match get_current_user true tok (.error "not decoded") db now fresh with
      | .ok (_, db2) => db2
      | .error _ => db
  | .resolveBearerLegacy leg =>
      match get_current_user false (.error "not verified") leg db 0 0 with
      | .ok (_, db2) => db2
      | .error _ => db

/-- Federated id of the row with primary key `i`, when such a row exists. -/
def rowFid (db : List UserRow) (i : Nat) : Option (Option String) :=
  (findById db i).map (·.keycloak_user_id)

theorem findById_append_left {db : List UserRow} {i : Nat} {u : UserRow}
    (h : findById db i = some u) (l : List UserRow) :
    findById (db ++ l) i = some u := by
  unfold findById at h ⊢
  rw [List.find?_append, h]
  rfl

theorem findById_updateRow_of_id (db : List UserRow) (j : Nat) (w : UserRow)
    (hw : w.id = j) (i : Nat) :
    findById (updateRow db j w) i
      = (findById db i).map (fun u => if u.id = j then w else u) := by
  induction db with
  | nil => rfl
  | cons a t ih =>
      have hid : (if a.id = j then w else a).id = a.id := by
        by_cases h : a.id = j <;> simp [h, hw]
      have hcons : updateRow (a :: t) j w
          = (if a.id = j then w else a) :: updateRow t j w := rfl
      by_cases hai : a.id = i
      · have l1 : findById (updateRow (a :: t) j w) i
            = some (if a.id = j then w else a) := by
          unfold findById
          rw [hcons]
          exact List.find?_cons_of_pos _ (by simp only [hid, decide_eq_true_eq]; exact hai)
        have l2 : findById (a :: t) i = some a := by
          unfold findById
          exact List.find?_cons_of_pos _ (by simp only [decide_eq_true_eq]; exact hai)
        rw [l1, l2]
        rfl
      · have l1 : findById (updateRow (a :: t) j w) i
            = findById (updateRow t j w) i := by
          unfold findById
          rw [hcons]
          exact List.find?_cons_of_neg _ (by simp only [hid, decide_eq_true_eq]; exact hai)
        have l2 : findById (a :: t) i = findById t i := by
          unfold findById
          exact List.find?_cons_of_neg _ (by simp only [decide_eq_true_eq]; exact hai)
        rw [l1, l2, ih]

theorem updateRow_map_id (db : List UserRow) (j : Nat) (w : UserRow)
    (hw : w.id = j) :
    (updateRow db j w).map (·.id) = db.map (·.id) := by
  unfold updateRow
  rw [List.map_map]
  apply List.map_congr_left
  intro a _
  by_cases h : a.id = j <;> simp [h, hw]

theorem findById_id {db : List UserRow} {i : Nat} {u : UserRow}
    (h : findById db i = some u) : u.id = i := by
  unfold findById at h
  have := List.find?_some h
  simpa using this

/-- Master case analysis of a successful Keycloak-branch resolution, as
a table transformation: the table is unchanged, or grows by exactly the
returned row, or has exactly one row replaced by the returned row — and
the replacement preserves the row's `keycloak_user_id` unless it was
falsy, in which case it becomes the token's non-empty `sub`. -/
theorem keycloak_ok_table (info : TokenInfo) (db : List UserRow) (now : Int)
    (freshId : Nat) (v : UserRow) (db2 : List UserRow)
    (h : get_current_user_keycloak (.ok info) db now freshId = .ok (v, db2)) :
    db2 = db ∨
    (dbUnique db2 = true ∧ db2 = db ++ [v]) ∨
    (dbUnique db2 = true ∧ ∃ u1, u1 ∈ db ∧ v.id = u1.id ∧
      db2 = updateRow db u1.id v ∧
      (v.keycloak_user_id = u1.keycloak_user_id ∨
       (pyFalsy u1.keycloak_user_id = true ∧
        v.keycloak_user_id = some (info.keycloak_user_id.getD "") ∧
        info.keycloak_user_id.getD "" ≠ ""))) := by
  unfold get_current_user_keycloak at h
  simp only [bind, Except.bind, pure, Except.pure] at h
  cases hactive : info.active with
  | false => simp [hactive] at h
  | true =>
  simp only [hactive, Bool.not_true, Bool.false_eq_true, ite_false] at h
  cases hguard : pyFalsy info.preferred_username || pyFalsy info.keycloak_user_id with
  | true => simp [hguard] at h
  | false =>
  simp only [hguard, Bool.false_eq_true, ite_false] at h
  have hkc : pyFalsy info.keycloak_user_id = false :=
    (Bool.or_eq_false_iff.mp hguard).2
  have hkcne : info.keycloak_user_id.getD "" ≠ "" := pyFalsy_false_ne hkc
  cases hfind : findByKeycloakId db (info.keycloak_user_id.getD "") with
  | some u =>
    simp only [hfind] at h
    have hmem : u ∈ db := List.mem_of_find?_eq_some hfind
    have hu : u.keycloak_user_id = some (info.keycloak_user_id.getD "") := by
      have := List.find?_some hfind
      exact of_decide_eq_true this
    have hufalsy : pyFalsy u.keycloak_user_id = false := by
      rw [hu]
      simpa [pyFalsy] using hkcne
    simp only [hufalsy, Bool.false_eq_true, ite_false] at h
    split at h
    · split at h
      · rename_i huniq
        cases h
        exact Or.inr (Or.inr ⟨huniq, u, hmem, rfl, rfl, Or.inl rfl⟩)
      · exact absurd h (by simp)
    · cases h
      exact Or.inl rfl
  | none =>
    simp only [hfind] at h
    cases hfu : findByUsername db (info.preferred_username.getD "") with
    | none =>
      simp only [hfu] at h
      split at h
      · rename_i huniq
        cases h
        exact Or.inr (Or.inl ⟨huniq, rfl⟩)
      · exact absurd h (by simp)
    | some w =>
      simp only [hfu] at h
      have hmem : w ∈ db := List.mem_of_find?_eq_some hfu
      cases hwf : pyFalsy w.keycloak_user_id with
      | true =>
        simp only [hwf, ite_true] at h
        split at h
        · split at h
          · rename_i huniq
            cases h
            exact Or.inr (Or.inr ⟨huniq, w, hmem, rfl, rfl,
              Or.inr ⟨hwf, rfl, hkcne⟩⟩)
          · exact absurd h (by simp)
        · cases h
          exact Or.inl rfl
      | false =>
        simp only [hwf, Bool.false_eq_true, ite_false] at h
        split at h
        · split at h
          · rename_i huniq
            cases h
            exact Or.inr (Or.inr ⟨huniq, w, hmem, rfl, rfl, Or.inl rfl⟩)
          · exact absurd h (by simp)
        · cases h
          exact Or.inl rfl

theorem ids_nodup_of_dbUnique {db : List UserRow} (h : dbUnique db = true) :
    (db.map (·.id)).Nodup := by
  simp only [dbUnique, Bool.and_eq_true, decide_eq_true_eq] at h
  exact h.1.1.1

theorem legacy_ok_db (leg : Except String LegacyPayload) (db : List UserRow)
    (v : UserRow) (db2 : List UserRow)
    (h : get_current_user_legacy leg db = .ok (v, db2)) : db2 = db := by
  unfold get_current_user_legacy at h
  cases leg with
  | error e => exact absurd h (by simp [bind, Except.bind])
  | ok p =>
      simp only [bind, Except.bind] at h
      split at h
      · split at h
        · exact absurd h (by simp)
        · simp only [pure, Except.pure] at h
          cases h
          rfl
      · exact absurd h (by simp)

theorem register_keycloak_ok (req : RegisterRequest)
    (fid : Except String String) (db : List UserRow) (now : Int)
    (fresh : Nat) (v : UserRow) (db2 : List UserRow)
    (h : register_keycloak req fid db now fresh = .ok (v, db2)) :
    dbUnique db2 = true ∧ db2 = db ++ [v] := by
  unfold register_keycloak at h
  dsimp only at h
  split at h
  · exact absurd h (by simp)
  · split at h
    · exact absurd h (by simp)
    · split at h
      · exact absurd h (by simp)
      · split at h
        · rename_i huniq
          cases h
          exact ⟨huniq, rfl⟩
        · exact absurd h (by simp)

theorem register_legacy_ok (req : RegisterRequest) (hashed : String)
    (db : List UserRow) (fresh : Nat) (v : UserRow) (db2 : List UserRow)
    (h : register_legacy req hashed db fresh = .ok (v, db2)) :
    dbUnique db2 = true ∧ db2 = db ++ [v] := by
  unfold register_legacy at h
  dsimp only at h
  split at h
  · exact absurd h (by simp)
  · split at h
    · exact absurd h (by simp)
    · split at h
      · rename_i huniq
        cases h
        exact ⟨huniq, rfl⟩
      · exact absurd h (by simp)

theorem federated_ok_inner (tok : Except String TokenInfo)
    (leg : Except String LegacyPayload) (db : List UserRow) (now : Int)
    (fresh : Nat) (v : UserRow) (db2 : List UserRow)
    (h : get_current_user true tok leg db now fresh = .ok (v, db2)) :
    ∃ info, tok = .ok info ∧
      get_current_user_keycloak (.ok info) db now fresh = .ok (v, db2) := by
  unfold get_current_user at h
  simp only [if_true] at h
  cases hi : get_current_user_keycloak tok db now fresh with
  | error e => rw [hi] at h; exact absurd h (by simp)
  | ok r =>
      rw [hi] at h
      cases h
      cases tok with
      | error e => exact absurd hi (by simp [get_current_user_keycloak, bind, Except.bind])
      | ok info => exact ⟨info, rfl, hi⟩

theorem applyOp_ids_nodup (op : AuthOp) (db : List UserRow)
    (h : (db.map (·.id)).Nodup) : ((applyOp op db).map (·.id)).Nodup := by
  cases op with
  | registerFederated req fid now fresh =>
      unfold applyOp
      dsimp only
      cases hr : register_keycloak req fid db now fresh with
      | error e => exact h
      | ok r =>
          obtain ⟨v, db2⟩ := r
          obtain ⟨huniq, rfl⟩ := register_keycloak_ok req fid db now fresh v db2 hr
          exact ids_nodup_of_dbUnique huniq
  | registerLegacy req hashed fresh =>
      unfold applyOp
      dsimp only
      cases hr : register_legacy req hashed db fresh with
      | error e => exact h
      | ok r =>
          obtain ⟨v, db2⟩ := r
          obtain ⟨huniq, rfl⟩ := register_legacy_ok req hashed db fresh v db2 hr
          exact ids_nodup_of_dbUnique huniq
  | login => exact h
  | resolveBearerFederated tok now fresh =>
      unfold applyOp
      dsimp only
      cases hg : get_current_user true tok (.error "not decoded") db now fresh with
      | error e => exact h
      | ok r =>
          obtain ⟨v, db2⟩ := r
          obtain ⟨info, htok, hin⟩ :=
            federated_ok_inner tok (.error "not decoded") db now fresh v db2 hg
          rcases keycloak_ok_table info db now fresh v db2 hin with
            h1 | ⟨hu, h2⟩ | ⟨hu, u1, hmem, hid2, h3, _⟩
          · rw [h1]; exact h
          · exact ids_nodup_of_dbUnique hu
          · rw [h3, updateRow_map_id db u1.id v hid2]; exact h
  | resolveBearerLegacy leg =>
      unfold applyOp
      dsimp only
      cases hg : get_current_user false (.error "not verified") leg db 0 0 with
      | error e => exact h
      | ok r =>
          obtain ⟨v, db2⟩ := r
          have hdb : db2 = db := by
            unfold get_current_user at hg
            simp only [Bool.false_eq_true, if_false] at hg
            cases hi : get_current_user_legacy leg db with
            | error e => rw [hi] at hg; exact absurd hg (by simp)
            | ok r2 =>
                rw [hi] at hg
                cases hg
                exact legacy_ok_db leg db v db2 hi
          rw [hdb]
          exact h

theorem applyOp_row_effect (op : AuthOp) (db : List UserRow) (i : Nat)
    (u : UserRow) (hnd : (db.map (·.id)).Nodup)
    (hu : findById db i = some u) :
    findById (applyOp op db) i = some u ∨
    (∃ w, findById (applyOp op db) i = some w ∧
      (w.keycloak_user_id = u.keycloak_user_id ∨
       (pyFalsy u.keycloak_user_id = true ∧
        ∃ s, s ≠ "" ∧ w.keycloak_user_id = some s))) := by
  cases op with
  | registerFederated req fid now fresh =>
      unfold applyOp
      dsimp only
      cases hr : register_keycloak req fid db now fresh with
      | error e => exact Or.inl hu
      | ok r =>
          obtain ⟨v, db2⟩ := r
          obtain ⟨_, rfl⟩ := register_keycloak_ok req fid db now fresh v db2 hr
          exact Or.inl (findById_append_left hu [v])
  | registerLegacy req hashed fresh =>
      unfold applyOp
      dsimp only
      cases hr : register_legacy req hashed db fresh with
      | error e => exact Or.inl hu
      | ok r =>
          obtain ⟨v, db2⟩ := r
          obtain ⟨_, rfl⟩ := register_legacy_ok req hashed db fresh v db2 hr
          exact Or.inl (findById_append_left hu [v])
  | login => exact Or.inl hu
  | resolveBearerFederated tok now fresh =>
      unfold applyOp
      dsimp only
      cases hg : get_current_user true tok (.error "not decoded") db now fresh with
      | error e => exact Or.inl hu
      | ok r =>
          obtain ⟨v, db2⟩ := r
          obtain ⟨info, htok, hin⟩ :=
            federated_ok_inner tok (.error "not decoded") db now fresh v db2 hg
          rcases keycloak_ok_table info db now fresh v db2 hin with
            h1 | ⟨_, h2⟩ | ⟨_, u1, hmem, hid2, h3, hkcd⟩
          · rw [h1]; exact Or.inl hu
          · rw [h2]; exact Or.inl (findById_append_left hu [v])
          · rw [h3, findById_updateRow_of_id db u1.id v hid2 i, hu]
            by_cases heq : u.id = u1.id
            · have humem : u ∈ db := by
                have h4 := hu
                unfold findById at h4
                exact List.mem_of_find?_eq_some h4
              have huu1 : u = u1 :=
                List.inj_on_of_nodup_map hnd humem hmem heq
              refine Or.inr ⟨v, by simp [heq], ?_⟩
              rcases hkcd with hk | ⟨hfalsy, hkc, hne⟩
              · exact Or.inl (by rw [hk, huu1])
              · exact Or.inr ⟨by rw [huu1]; exact hfalsy,
                  info.keycloak_user_id.getD "", hne, hkc⟩
            · exact Or.inl (by simp [heq])
  | resolveBearerLegacy leg =>
      unfold applyOp
      dsimp only
      cases hg : get_current_user false (.error "not verified") leg db 0 0 with
      | error e => exact Or.inl hu
      | ok r =>
          obtain ⟨v, db2⟩ := r
          have hdb : db2 = db := by
            unfold get_current_user at hg
            simp only [Bool.false_eq_true, if_false] at hg
            cases hi : get_current_user_legacy leg db with
            | error e => rw [hi] at hg; exact absurd hg (by simp)
            | ok r2 =>
                rw [hi] at hg
                cases hg
                exact legacy_ok_db leg db v db2 hi
          rw [hdb]
          exact Or.inl hu

/-- C8: once a row's `federated_id` is a non-empty value, no core
operation — register in either mode, login, federated or legacy bearer
resolution with its reconciler sync — ever changes it, over single steps
and over arbitrary operation sequences; and a row whose `federated_id`
is null either keeps it null or receives a non-empty value (the
legacy-row upgrade), never anything else.  Non-empty matters because
Python truthiness makes an empty-string id behave as unset; the code
guards every path that stores an id so that only non-empty ids are
written. -/
theorem C8_federated_id_immutable :
    (∀ (op : AuthOp) (db : List UserRow) (i : Nat) (v : String),
      (db.map (·.id)).Nodup → v ≠ "" → rowFid db i = some (some v) →
      rowFid (applyOp op db) i = some (some v)) ∧
    (∀ (ops : List AuthOp) (db : List UserRow) (i : Nat) (v : String),
      (db.map (·.id)).Nodup → v ≠ "" → rowFid db i = some (some v) →
      rowFid (ops.foldl (fun d op => applyOp op d) db) i = some (some v)) ∧
    (∀ (op : AuthOp) (db : List UserRow) (i : Nat),
      (db.map (·.id)).Nodup → rowFid db i = some none →
      rowFid (applyOp op db) i = some none ∨
      ∃ s, s ≠ "" ∧ rowFid (applyOp op db) i = some (some s)) := by
  have step : ∀ (op : AuthOp) (db : List UserRow) (i : Nat) (v : String),
      (db.map (·.id)).Nodup → v ≠ "" → rowFid db i = some (some v) →
      rowFid (applyOp op db) i = some (some v) := by
    intro op db i v hnd hv h
    cases hfu : findById db i with
    | none => rw [rowFid, hfu] at h; exact absurd h (by simp)
    | some u =>
        have hukc : u.keycloak_user_id = some v := by
          rw [rowFid, hfu] at h
          simpa using h
        rcases applyOp_row_effect op db i u hnd hfu with
          h1 | ⟨w, hw, hkc | ⟨hfalsy, _⟩⟩
        · rw [rowFid, h1]; simp [hukc]
        · rw [rowFid, hw]; simp [hkc, hukc]
        · rw [hukc] at hfalsy
          simp [pyFalsy, hv] at hfalsy
  refine ⟨step, ?_, ?_⟩
  · intro ops
    induction ops with
    | nil => intro db i v _ _ h; exact h
    | cons op ops ih =>
        intro db i v hnd hv h
        exact ih (applyOp op db) i v (applyOp_ids_nodup op db hnd) hv
          (step op db i v hnd hv h)
  · intro op db i hnd h
    cases hfu : findById db i with
    | none => rw [rowFid, hfu] at h; exact absurd h (by simp)
    | some u =>
        have hukc : u.keycloak_user_id = none := by
          rw [rowFid, hfu] at h
          simpa using h
        rcases applyOp_row_effect op db i u hnd hfu with
          h1 | ⟨w, hw, hkc | ⟨_, s, hs, hkcw⟩⟩
        · left; rw [rowFid, h1]; simp [hukc]
        · left; rw [rowFid, hw]; simp [hkc, hukc]
        · right; exact ⟨s, hs, by rw [rowFid, hw]; simp [hkcw]⟩

/-- C8, witness: a trace of a federated resolution (whose claims carry a
different `sub`) followed by a login, run on a table whose row 1 already
has `federated_id = "abc"`: the value is untouched. -/
theorem C8_federated_id_immutable_witness :
    rowFid (([AuthOp.resolveBearerFederated (.ok infoDifferentSub) 0 5,
        AuthOp.login]).foldl (fun d op => applyOp op d) [uGrace]) 1
      = some (some "abc") :=
  C8_federated_id_immutable.2.1
    [AuthOp.resolveBearerFederated (.ok infoDifferentSub) 0 5, AuthOp.login]
    [uGrace] 1 "abc" (by decide) (by decide) (by decide)

/-! IdP provisioning `create_user_in_keycloak` (`keycloak_client.py`
lines 86-229). -/

/-- Outcomes of the successive HTTP interactions `create_user_in_keycloak`
performs, in order: admin token grant, phase-1 user creation (the
`Option String` is the `Location` header of the 201 response),
fallback id search, phase-2 password PUT, phase-3 GET of the record and
phase-3 finalizing PUT.  An `Except.error` is a raised exception
(transport failure, or `raise_for_status` on the creation response); a
plain `Nat` is an HTTP status code the code inspects itself. -/
structure ProvisionEnv where
  admin_token : Except String String
  create_user : Except String (Option String)
  search_users : Except String (List String)
  reset_password : Except String Nat
  get_user : Except String Nat
  update_user : Except String Nat

/-- Python's `s.split("/")`, split at every slash, keeping empty
segments (so `"a/"` yields `["a", ""]` and `""` yields `[""]`). -/
def splitSlashAux : List Char → List Char → List String
  | [], acc => [⟨acc.reverse⟩]
  | c :: cs, acc =>
      if c = '/' then ⟨acc.reverse⟩ :: splitSlashAux cs []
      else splitSlashAux cs (c :: acc)

/-- Python's `location.split("/")[-1]`: the last slash-separated
segment. -/
def lastSegment (s : String) : String :=
  (splitSlashAux s.data []).getLastD ""

/-- Model of `create_user_in_keycloak`: recover the user id from the
`Location` header (its last `/`-segment) or by username search; fail
unless the password PUT returns 200/204; perform the phase-3 GET and —
only when the GET returned 200 — the finalizing PUT, whose status is
only logged, never checked; return the user id. -/
def create_user_in_keycloak (env : ProvisionEnv) : Except String String := do
  let _admin_token ← env.admin_token
  let location ← env.create_user
  let user_id ←
    match location with
    | some loc => pure (lastSegment loc)
    | none => do
        let users ← env.search_users
        match users with
        | [] => throw "User created but ID not found"
        | u :: _ => pure u
  let pstatus ← env.reset_password
  if pstatus ≠ 200 ∧ pstatus ≠ 204 then
    throw "Failed to set password"
  let gstatus ← env.get_user
  if gstatus = 200 then
    let _ustatus ← env.update_user
    pure ()
  pure user_id

/-- Provisioning run whose phase-3 finalizing PUT fails with a 500. -/
def envPhase3Fail : ProvisionEnv :=
  ⟨.ok "admin-token", .ok (some "http://idp/admin/realms/linksy/users/uuid-1"),
   .error "not searched", .ok 204, .ok 200, .ok 500⟩

/-- C2, counterexample: with every earlier step succeeding and the
phase-3 finalizing PUT answering 500 (not 2xx), `create_user_in_keycloak`
still returns the federated id as a success — it does not fail, and no
structured partial-provision error exists in the code. -/
theorem C2_counterexample :
    create_user_in_keycloak envPhase3Fail = .ok "uuid-1" ∧
    envPhase3Fail.update_user = .ok 500 ∧
    ¬(200 ≤ 500 ∧ 500 < 300) :=
  ⟨rfl, rfl, by decide⟩

/-- C2, amended: provisioning reports success exactly when the admin
token grant succeeds, phase 1 creates the user and an id is recovered
(from the `Location` header, or by a non-empty username search), the
phase-2 password PUT returns 200 or 204, and phase 3 raises no transport
exception — the HTTP status of the phase-3 finalizing PUT is never
inspected, so a failing finalize still returns the federated id as a
success (second conjunct: the result does not depend on that status). -/
theorem C2_provision_success (env : ProvisionEnv) :
    ((∃ uid, create_user_in_keycloak env = .ok uid) ↔
      ((∃ t, env.admin_token = .ok t) ∧
       ((∃ loc, env.create_user = .ok (some loc)) ∨
        (env.create_user = .ok none ∧ ∃ u us, env.search_users = .ok (u :: us))) ∧
       (∃ ps, env.reset_password = .ok ps ∧ (ps = 200 ∨ ps = 204)) ∧
       (∃ gs, env.get_user = .ok gs ∧
         (gs = 200 → ∃ us2, env.update_user = .ok us2)))) ∧
    (∀ s1 s2 : Nat,
      create_user_in_keycloak { env with update_user := .ok s1 }
        = create_user_in_keycloak { env with update_user := .ok s2 }) := by
  obtain ⟨tok, cu, su, rp, gu, uu⟩ := env
  have main : ∀ uu2 : Except String Nat,
      (∃ uid, create_user_in_keycloak ⟨tok, cu, su, rp, gu, uu2⟩ = .ok uid) ↔
      ((∃ t, tok = .ok t) ∧
       ((∃ loc, cu = .ok (some loc)) ∨
        (cu = .ok none ∧ ∃ u us, su = .ok (u :: us))) ∧
       (∃ ps, rp = .ok ps ∧ (ps = 200 ∨ ps = 204)) ∧
       (∃ gs, gu = .ok gs ∧ (gs = 200 → ∃ us2, uu2 = .ok us2))) := by
    intro uu2
    cases tok with
    | error e => simp [create_user_in_keycloak, bind, Except.bind]
    | ok t =>
    cases cu with
    | error e => simp [create_user_in_keycloak, bind, Except.bind]
    | ok loc =>
    cases rp with
    | error e =>
        cases loc with
        | some l => simp [create_user_in_keycloak, bind, Except.bind, pure, Except.pure]
        | none =>
            cases su with
            | error e2 => simp [create_user_in_keycloak, bind, Except.bind]
            | ok users =>
                cases users with
                | nil => simp [create_user_in_keycloak, bind, Except.bind, pure, Except.pure]
                | cons u us => simp [create_user_in_keycloak, bind, Except.bind, pure, Except.pure]
    | ok ps =>
    by_cases hps : ps = 200 ∨ ps = 204
    · have hcond : ¬(ps ≠ 200 ∧ ps ≠ 204) := by tauto
      cases gu with
      | error e =>
          cases loc with
          | some l => simp [create_user_in_keycloak, bind, Except.bind, pure,
              Except.pure, hcond, hps]
          | none =>
              cases su with
              | error e2 => simp [create_user_in_keycloak, bind, Except.bind]
              | ok users =>
                  cases users with
                  | nil => simp [create_user_in_keycloak, bind, Except.bind, pure, Except.pure]
                  | cons u us => simp [create_user_in_keycloak, bind, Except.bind,
                      pure, Except.pure, hcond, hps]
      | ok gs =>
      by_cases hgs : gs = 200
      · cases uu2 with
        | error e =>
            cases loc with
            | some l => simp [create_user_in_keycloak, bind, Except.bind, pure,
                Except.pure, hcond, hps, hgs]
            | none =>
                cases su with
                | error e2 => simp [create_user_in_keycloak, bind, Except.bind]
                | ok users =>
                    cases users with
                    | nil => simp [create_user_in_keycloak, bind, Except.bind,
                        pure, Except.pure]
                    | cons u us => simp [create_user_in_keycloak, bind, Except.bind,
                        pure, Except.pure, hcond, hps, hgs]
        | ok us2 =>
            cases loc with
            | some l => simp [create_user_in_keycloak, bind, Except.bind, pure,
                Except.pure, hcond, hps, hgs]
            | none =>
                cases su with
                | error e2 => simp [create_user_in_keycloak, bind, Except.bind]
                | ok users =>
                    cases users with
                    | nil => simp [create_user_in_keycloak, bind, Except.bind,
                        pure, Except.pure]
                    | cons u us => simp [create_user_in_keycloak, bind, Except.bind,
                        pure, Except.pure, hcond, hps, hgs]
      · cases loc with
        | some l => simp [create_user_in_keycloak, bind, Except.bind, pure,
            Except.pure, hcond, hps, hgs]
        | none =>
            cases su with
            | error e2 => simp [create_user_in_keycloak, bind, Except.bind]
            | ok users =>
                cases users with
                | nil => simp [create_user_in_keycloak, bind, Except.bind,
                    pure, Except.pure]
                | cons u us => simp [create_user_in_keycloak, bind, Except.bind,
                    pure, Except.pure, hcond, hps, hgs]
    · have h1 : ps ≠ 200 := fun h => hps (Or.inl h)
      have h2 : ps ≠ 204 := fun h => hps (Or.inr h)
      cases loc with
      | some l => simp [create_user_in_keycloak, bind, Except.bind, pure,
          Except.pure, h1, h2]
      | none =>
          cases su with
          | error e2 => simp [create_user_in_keycloak, bind, Except.bind]
          | ok users =>
              cases users with
              | nil => simp [create_user_in_keycloak, bind, Except.bind,
                  pure, Except.pure]
              | cons u us => simp [create_user_in_keycloak, bind, Except.bind,
                  pure, Except.pure, h1, h2]
  constructor
  · exact main uu
  · intro s1 s2
    rfl

/-- C2, witness: the finalize-status irrelevance applied concretely —
a 500 and a 204 on the phase-3 PUT produce identical results. -/
theorem C2_provision_success_witness :
    create_user_in_keycloak { envPhase3Fail with update_user := .ok 500 }
      = create_user_in_keycloak { envPhase3Fail with update_user := .ok 204 } :=
  (C2_provision_success envPhase3Fail).2 500 204
